/-
Verification of the repertoire-builder core against its specification.

The development is a shallow embedding of the four Python source files:

* `lichess_api.py`   — the cached, retrying statistics client,
* `move_analyzer.py` — the composite move scorer,
* `repertoire_builder.py` — the breadth-first tree builder,
* `repertoire_node.py` — the tree node type.

Modelling conventions:

* Python `str` values are Lean `String`s; where character-level reasoning
  is needed (the cache key) we work with `String.data : List Char`.
* Python numbers: game counts and depths are `Nat`; exact fractions
  (popularity, win rates, thresholds) are `ℚ`; quantities built from
  `math.log2` (entropy, sharpness, scores) are `ℝ`.  Floating point is
  idealized as exact real arithmetic.
* Python dicts that preserve insertion order are association lists
  `List (String × _)`; re-assigning an existing key keeps its position
  (`upsertMove` below), as CPython dicts do.
* External effects are oracles passed as arguments: the network is
  `net : Nat → Option RawResponse` (the response of each attempt, `none`
  modelling `requests.RequestException`), the chess rules engine
  (`python-chess`, an out-of-scope collaborator per the spec) is a
  function `apply_san : String → String → Option String` from a FEN and
  a SAN move to the resulting FEN (`none` modelling `ValueError`), and
  the already-built cached client seen from the builder is a
  `StatsApi` record of pure lookups (justified by cache idempotence).
* `hashlib.md5(...).hexdigest()` is an external deterministic digest;
  `md5hex` models it as an injective placeholder (the identity), which
  preserves exactly the property that equal inputs give equal keys.
* Exceptions that escape a function are modelled with `Except`:
  `_process_node_bfs` can evaluate the undefined name
  `position_threshold` (repertoire_builder.py line 169), which raises a
  Python `NameError`; the surrounding `except ValueError` does not catch
  it, so the model returns `Except.error`.
* Time is not modelled; the retry delays (`time.sleep(5)`) of the client
  are recorded in a `sleeps` log, and the `_rate_limit` throttling wait
  is abstracted away.
-/
import Mathlib

/-! ## Statistics client (`lichess_api.py`) -/

/-- One decimal digit character, as produced by Python `str` on an `int`. -/
def digitChar : Nat → Char
  | 0 => '0'
  | 1 => '1'
  | 2 => '2'
  | 3 => '3'
  | 4 => '4'
  | 5 => '5'
  | 6 => '6'
  | 7 => '7'
  | 8 => '8'
  | 9 => '9'
  | _ => '*'

/-- Python `str` on a non-negative `int`: decimal digits, most significant
first.  `Nat.digits` is little-endian, hence the `reverse`. -/
def pyStr (n : Nat) : List Char :=
  if n = 0 then ['0'] else ((Nat.digits 10 n).map digitChar).reverse

/-- Python `'_'.join(...)` on a list of strings given by their character
lists. -/
def joinUnderscoreChars : List (List Char) → List Char
  | [] => []
  | [s] => s
  | s :: rest => s ++ '_' :: joinUnderscoreChars rest

/-- Python `<` on `str`, the order used by `sorted(...)`: lexicographic
comparison of the code-point sequences. -/
def pyStrLe (a b : String) : Prop := a.data ≤ b.data

instance : DecidableRel pyStrLe := fun a b =>
  (inferInstance : Decidable (a.data ≤ b.data))

/-- Python `sorted(...)` on a list of strings: a stable sort by the
lexicographic order on strings. -/
def sortedStrings (l : List String) : List String :=
  List.insertionSort pyStrLe l

/-- `hashlib.md5(key_data.encode()).hexdigest()`: an external
deterministic digest, modelled as an injective placeholder so that equal
inputs (and only demonstrably equal inputs) give equal keys. -/
def md5hex : List Char → List Char := id

/-- `LichessAPI._get_cache_key`: the digest of
`f"{fen}_{min_rating}_{max_rating}_{'_'.join(sorted(time_controls))}"`. -/
def _get_cache_key (fen : String) (min_rating max_rating : Nat)
    (time_controls : List String) : List Char :=
  md5hex (fen.data ++ '_' :: (pyStr min_rating ++ '_' :: (pyStr max_rating ++
    '_' :: joinUnderscoreChars ((sortedStrings time_controls).map String.data))))

/-- One move entry of a raw Lichess explorer response. -/
structure RawMove where
  san : String
  white : Nat
  draws : Nat
  black : Nat

/-- A raw Lichess explorer response (`response.json()`). -/
structure RawResponse where
  white : Nat
  draws : Nat
  black : Nat
  moves : List RawMove

/-- The per-move outcome record stored under `"moves"` in processed
position data (`{"wins": …, "draws": …, "losses": …, "games": …}`). -/
structure MoveData where
  wins : Nat
  draws : Nat
  losses : Nat
  games : Nat

/-- Processed position statistics, the value format of the client's
cache.  `high_rating_preferences` is the extra mapping added by
`get_comprehensive_position_stats`; plain `get_position_stats` data has
it empty, matching the `.get('high_rating_preferences', {})` default
used by the analyzer. -/
structure PositionStats where
  total_games : Nat
  white : Nat
  draws : Nat
  black : Nat
  moves : List (String × MoveData)
  high_rating_preferences : List (String × ℚ) := []

/-- CPython dict assignment `d[k] = v`: replaces in place when the key is
present, appends otherwise. -/
def upsertMove (l : List (String × MoveData)) (k : String) (v : MoveData) :
    List (String × MoveData) :=
  match l with
  | [] => [(k, v)]
  | (k', v') :: rest =>
    if k' = k then (k, v) :: rest else (k', v') :: upsertMove rest k v

/-- `LichessAPI._process_lichess_response`. -/
def _process_lichess_response (data : RawResponse) : PositionStats :=
  let total_games := data.white + data.draws + data.black
  let moves := data.moves.foldl (fun acc move_data =>
    let games := move_data.white + move_data.draws + move_data.black
    if 0 < games then
      upsertMove acc move_data.san
        ⟨move_data.white, move_data.draws, move_data.black, games⟩
    else acc) []
  { total_games := total_games, white := data.white, draws := data.draws,
    black := data.black, moves := moves }

/-- The client's in-memory cache `self.cache` (a JSON object: an ordered
map from hex key to processed stats). -/
abbrev Cache := List (List Char × PositionStats)

/-- Python `key in cache` / `cache[key]`. -/
def cacheLookup (cache : Cache) (key : List Char) : Option PositionStats :=
  match cache with
  | [] => none
  | (k, v) :: rest => if k = key then some v else cacheLookup rest key

/-- Python `self.cache[cache_key] = processed_data`. -/
def cacheInsert (cache : Cache) (key : List Char) (v : PositionStats) : Cache :=
  match cache with
  | [] => [(key, v)]
  | (k, v') :: rest =>
    if k = key then (key, v) :: rest else (k, v') :: cacheInsert rest key v

/-- Observable outcome of one `get_position_stats` call: the returned
value, the cache afterwards, the number of outbound attempts issued, and
the log of `time.sleep` delays (seconds) taken between attempts. -/
structure FetchResult where
  result : Option PositionStats
  cache : Cache
  attempts : Nat
  sleeps : List Nat

/-- The retry loop `for attempt in range(max_retries)` of
`get_position_stats`: each attempt consults the network oracle; on
failure (`requests.RequestException`, modelled as `none`) it sleeps 5
seconds and retries unless it was the last attempt, in which case the
call returns `None`. -/
def tryAttempts (net : Nat → Option RawResponse) (cache : Cache)
    (key : List Char) : List Nat → FetchResult
  | [] => ⟨none, cache, 0, []⟩
  | attempt :: rest =>
    match net attempt with
    | some data =>
      let processed_data := _process_lichess_response data
      ⟨some processed_data, cacheInsert cache key processed_data, 1, []⟩
    | none =>
      match rest with
      | [] => ⟨none, cache, 1, []⟩
      | _ :: _ =>
        let r := tryAttempts net cache key rest
        ⟨r.result, r.cache, r.attempts + 1, 5 :: r.sleeps⟩

/-- `LichessAPI.get_position_stats`: cache hit, else up to
`max_retries = 3` network attempts.  The `include_rating_breakdown`
parameter is kept exactly as in the source, where its value is never
read. -/
def get_position_stats (net : Nat → Option RawResponse) (cache : Cache)
    (fen : String) (min_rating max_rating : Nat)
    (time_controls : List String) (include_rating_breakdown : Bool) :
    FetchResult :=
  let cache_key := _get_cache_key fen min_rating max_rating time_controls
  match cacheLookup cache cache_key with
  | some v => ⟨some v, cache, 0, []⟩
  | none => tryAttempts net cache cache_key (List.range 3)

/-! ## Move scorer (`move_analyzer.py`) -/

/-- `lichess_api.MoveStats`. -/
structure MoveStats where
  wins : Nat
  draws : Nat
  losses : Nat
  games : Nat

/-- `MoveStats.expected_score`: `(wins + 0.5·draws)/games`, `0` when
`games == 0`. -/
def MoveStats.expected_score (ms : MoveStats) : ℚ :=
  if ms.games = 0 then 0 else ((ms.wins : ℚ) + (1 / 2) * (ms.draws : ℚ)) / (ms.games : ℚ)

/-- `MoveStats.win_rate`: `wins/games`, `0` when `games == 0`. -/
def MoveStats.win_rate (ms : MoveStats) : ℚ :=
  if ms.games = 0 then 0 else (ms.wins : ℚ) / (ms.games : ℚ)

/-- `move_analyzer.ScoreDetails` (numeric fields only; the two
formatting methods are string rendering and are not modelled). -/
structure ScoreDetails where
  total_score : ℝ
  expected_score : ℝ
  high_rating_pref : ℝ
  sharpness : ℝ
  expected_score_weighted : ℝ
  high_rating_pref_weighted : ℝ
  sharpness_weighted : ℝ
  win_rate_weight : ℝ
  popularity_weight : ℝ
  sharpness_weight : ℝ

/-- The `MoveAnalyzer` instance state: the three configured weights and
whether `set_api` has installed a client (`self.lichess_api` not
`None`). -/
structure MoveAnalyzer where
  win_rate_weight : ℝ
  popularity_weight : ℝ
  sharpness_weight : ℝ
  has_api : Bool

/-- The rules-engine collaborator (`python-chess`, out of scope per the
spec): `board.parse_san(san)` followed by `board.push(move)`, as a map
from the board's FEN and the SAN text to the resulting FEN, `none` when
parsing raises `ValueError` (illegal or unparseable move). -/
structure RulesEngine where
  apply_san : String → String → Option String

/-- The cached statistics client as seen by the analyzer and builder: a
pure lookup per argument tuple (justified by cache idempotence; a
`None`/falsy result is `none`).  `getStats` keeps the unused
`include_rating_breakdown` flag of the source signature. -/
structure StatsApi where
  getStats : String → Nat → Nat → List String → Bool → Option PositionStats
  getCompStats : String → Nat → Nat → List String → Option PositionStats

/-- The zero-valued `ScoreDetails` returned by `calculate_move_score`
when there are no games, carrying the configured weights. -/
def zeroScoreDetails (an : MoveAnalyzer) : ScoreDetails :=
  ⟨0, 0, 0, 0, 0, 0, 0, an.win_rate_weight, an.popularity_weight, an.sharpness_weight⟩

/-- `MoveAnalyzer.calculate_entropy_sharpness`: applies the move, fetches
the resulting position's stats and turns the Shannon entropy of the
opponent-reply distribution into a sharpness value in `[0,1]`. -/
noncomputable def calculate_entropy_sharpness (an : MoveAnalyzer)
    (rules : RulesEngine) (api : StatsApi) (board_fen move_san : String)
    (min_rating max_rating : Nat) (time_controls : List String) : ℝ :=
  if an.has_api = false then 0
  else
    match rules.apply_san board_fen move_san with
    | none => 0
    | some temp_fen =>
      match api.getStats temp_fen min_rating max_rating time_controls false with
      | none => 0
      | some position_data =>
        if position_data.total_games < 50 then 0
        else if position_data.moves.length < 2 then 1
        else
          let total_games := position_data.total_games
          let probabilities :=
            ((position_data.moves.map
              (fun move_data => (move_data.2.games : ℚ) / (total_games : ℚ))).filter
              (fun prob => 0 < prob))
          if probabilities.length < 2 then 1
          else
            let entropy : ℝ :=
              -((probabilities.map (fun p => (p : ℝ) * Real.logb 2 (p : ℝ))).sum)
            let max_entropy : ℝ := Real.logb 2 (probabilities.length : ℝ)
            let normalized_entropy : ℝ :=
              if 0 < max_entropy then entropy / max_entropy else 0
            let sharpness : ℝ := 1 - normalized_entropy
            max 0 (min 1 sharpness)

/-- `MoveAnalyzer.get_high_rating_preference`: the pre-calculated
preference for a move, defaulting to `0.0`. -/
def get_high_rating_preference (move : String) (position_data : PositionStats) : ℚ :=
  (position_data.high_rating_preferences.lookup move).getD 0

/-- The weighted sum of `calculate_move_score` (source lines 133–138):
each component times its weight, summed into `total_score`. -/
def weightedTotal (expected_score normalized_high_pref sharpness
    win_rate_weight popularity_weight sharpness_weight : ℝ) : ℝ :=
  expected_score * win_rate_weight + normalized_high_pref * popularity_weight +
    sharpness * sharpness_weight

/-- `MoveAnalyzer.calculate_move_score`. -/
noncomputable def calculate_move_score (an : MoveAnalyzer) (rules : RulesEngine)
    (api : StatsApi) (move_stats : MoveStats) (total_games : Nat)
    (high_rating_preference : ℚ) (board_fen move_san : String)
    (min_rating max_rating : Nat) (time_controls : List String) : ScoreDetails :=
  if total_games = 0 ∨ move_stats.games = 0 then zeroScoreDetails an
  else
    let expected_score : ℝ := (move_stats.expected_score : ℝ)
    let normalized_high_pref : ℝ :=
      max 0 (min 1 (((high_rating_preference : ℝ) + 0.2) / 0.4))
    let sharpness : ℝ :=
      calculate_entropy_sharpness an rules api board_fen move_san min_rating
        max_rating time_controls
    let expected_score_weighted := expected_score * an.win_rate_weight
    let high_rating_pref_weighted := normalized_high_pref * an.popularity_weight
    let sharpness_weighted := sharpness * an.sharpness_weight
    let total_score :=
      weightedTotal expected_score normalized_high_pref sharpness
        an.win_rate_weight an.popularity_weight an.sharpness_weight
    ⟨total_score, expected_score, normalized_high_pref, sharpness,
      expected_score_weighted, high_rating_pref_weighted, sharpness_weighted,
      an.win_rate_weight, an.popularity_weight, an.sharpness_weight⟩

/-- One entry of the analyzed-move list `(san, MoveStats, ScoreDetails)`. -/
abbrev AnalyzedMove := String × MoveStats × ScoreDetails

/-- The descending-score comparison used by
`analyzed_moves.sort(key=…total_score, reverse=True)`; a Python stable
sort in reverse corresponds to inserting each element after all earlier
elements of greater-or-equal score. -/
def analyzedGe (a b : AnalyzedMove) : Prop :=
  b.2.2.total_score ≤ a.2.2.total_score

noncomputable instance : DecidableRel analyzedGe := fun _ _ => Classical.dec _

/-- `MoveAnalyzer.analyze_position`: keep the moves whose popularity
meets the threshold, score each, and sort by `total_score` descending
(stable). -/
noncomputable def analyze_position (an : MoveAnalyzer) (rules : RulesEngine)
    (api : StatsApi) (position_data : PositionStats) (threshold : ℚ)
    (fen : String) (min_rating max_rating : Nat)
    (time_controls : List String) : List AnalyzedMove :=
  let total_games := position_data.total_games
  if total_games = 0 then []
  else
    let analyzed_moves := position_data.moves.filterMap (fun sm =>
      let move_stats : MoveStats := ⟨sm.2.wins, sm.2.draws, sm.2.losses, sm.2.games⟩
      let popularity : ℚ := (move_stats.games : ℚ) / (total_games : ℚ)
      if threshold ≤ popularity then
        some (sm.1, move_stats,
          calculate_move_score an rules api move_stats total_games
            (get_high_rating_preference sm.1 position_data) fen sm.1
            min_rating max_rating time_controls)
      else none)
    List.insertionSort analyzedGe analyzed_moves

/-- `MoveAnalyzer.get_best_move`: first element of the already-sorted
list, or absent. -/
def get_best_move (analyzed_moves : List AnalyzedMove) : Option AnalyzedMove :=
  analyzed_moves.head?

/-! ## Tree node (`repertoire_node.py`) and builder (`repertoire_builder.py`) -/

/-- The termination reasons recorded on a node, as structured data; the
source stores the corresponding formatted strings
(`"API error"`, `f"White win rate {rate:.1%} > {thr:.0%}"`,
`"Max depth reached"`, `f"Insufficient games ({total} < {min})"`,
`f"No moves above {thr*100:.0f}% threshold"`). -/
inductive TermReason where
  | apiError
  | whiteWinRate (rate : ℚ) (threshold : ℚ)
  | maxDepth
  | insufficientGames (total_games : Nat) (min_games : Nat)
  | noMovesAboveThreshold (threshold : ℚ)

/-- A Python exception escaping a modelled function. -/
inductive PyError where
  | nameError (name : String)

/-- `repertoire_node.RepertoireNode`.  A recursive inductive: `children`
is the ordered list of owned child nodes. -/
inductive RepertoireNode : Type where
  | mk
    (move : Option String)
    (fen : Option String)
    (move_stats : Option MoveStats)
    (score_details : Option ScoreDetails)
    (children : List RepertoireNode)
    (is_mainline : Bool)
    (termination_reason : Option TermReason)

def RepertoireNode.move : RepertoireNode → Option String
  | .mk m _ _ _ _ _ _ => m

def RepertoireNode.fen : RepertoireNode → Option String
  | .mk _ f _ _ _ _ _ => f

def RepertoireNode.move_stats : RepertoireNode → Option MoveStats
  | .mk _ _ ms _ _ _ _ => ms

def RepertoireNode.score_details : RepertoireNode → Option ScoreDetails
  | .mk _ _ _ sd _ _ _ => sd

def RepertoireNode.children : RepertoireNode → List RepertoireNode
  | .mk _ _ _ _ c _ _ => c

def RepertoireNode.is_mainline : RepertoireNode → Bool
  | .mk _ _ _ _ _ b _ => b

def RepertoireNode.termination_reason : RepertoireNode → Option TermReason
  | .mk _ _ _ _ _ _ r => r

/-- Assignment `node.children = …` (all other attributes unchanged). -/
def RepertoireNode.with_children : RepertoireNode → List RepertoireNode → RepertoireNode
  | .mk m f ms sd _ b r, c => .mk m f ms sd c b r

/-- Assignment `node.is_mainline = …`. -/
def RepertoireNode.with_mainline : RepertoireNode → Bool → RepertoireNode
  | .mk m f ms sd c _ r, b => .mk m f ms sd c b r

/-- Assignment `node.termination_reason = …`. -/
def RepertoireNode.with_reason : RepertoireNode → Option TermReason → RepertoireNode
  | .mk m f ms sd c b _, r => .mk m f ms sd c b r

/-- The `RepertoireNode.score` property: `score_details.total_score`
when present, else `0.0`. -/
def RepertoireNode.score (n : RepertoireNode) : ℝ :=
  match n.score_details with
  | some sd => sd.total_score
  | none => 0

/-- Descending-score comparison used by
`children.sort(key=lambda x: x.score, reverse=True)` (a stable sort). -/
def scoreGe (a b : RepertoireNode) : Prop := b.score ≤ a.score

noncomputable instance : DecidableRel scoreGe := fun _ _ => Classical.dec _

/-- `RepertoireNode.add_child`: append, and when this makes the very
first child and it is not already flagged mainline, flag it mainline. -/
def RepertoireNode.add_child (n : RepertoireNode) (child_node : RepertoireNode) :
    RepertoireNode :=
  let children := n.children ++ [child_node]
  let children :=
    match children with
    | [c] => if c.is_mainline = false then [c.with_mainline true] else [c]
    | cs => cs
  n.with_children children

/-- The body of `RepertoireNode.sort_children` acting on the children
list: stable sort by score descending, then (when nonempty) clear every
`is_mainline` flag and set it on the first child. -/
noncomputable def sort_children_list (children : List RepertoireNode) :
    List RepertoireNode :=
  let sorted := List.insertionSort scoreGe children
  match sorted with
  | [] => []
  | h :: t => h.with_mainline true :: t.map (fun c => c.with_mainline false)

/-- `RepertoireNode.sort_children`. -/
noncomputable def RepertoireNode.sort_children (n : RepertoireNode) : RepertoireNode :=
  n.with_children (sort_children_list n.children)

/-- The `RepertoireBuilder` instance configuration used by
`_process_node_bfs`. -/
structure RepertoireBuilder where
  min_games : Nat
  white_win_rate_threshold : ℚ

/-- The per-depth threshold schedule of `_process_node_bfs`
(source lines 123–130). -/
def threshold_for_depth (current_depth : Nat)
    (first_move_threshold second_move_threshold third_move_threshold
      other_moves_threshold : ℚ) : ℚ :=
  if current_depth = 1 then first_move_threshold
  else if current_depth = 2 then second_move_threshold
  else if current_depth = 3 then third_move_threshold
  else other_moves_threshold

/-- A work-queue entry `(node, board, current_depth, is_white_turn)`;
the board is represented by its FEN. -/
abbrev QueueItem := RepertoireNode × String × Nat × Bool

/-- The `for san, move_stats, score_details in analyzed_moves` loop of
`_process_node_bfs` (source lines 145–203), threading the node being
mutated and the accumulated `children_to_queue`.

A move the rules engine rejects raises `ValueError`, which the loop's
`except ValueError: continue` skips.  When `is_white_turn` is false and
a move is accepted, the source next evaluates the call argument
`position_threshold` (line 169) — a name defined nowhere — so CPython
raises `NameError` before `_get_best_white_response` is entered; the
`except ValueError` handler does not catch `NameError`, so it escapes.
The rest of that branch (lines 172–198) is unreachable. -/
def processMovesLoop (rules : RulesEngine) (board_fen : String)
    (current_depth : Nat) (is_white_turn : Bool) :
    RepertoireNode → List QueueItem → List AnalyzedMove →
    Except PyError (RepertoireNode × List QueueItem)
  | node, children_to_queue, [] => .ok (node, children_to_queue)
  | node, children_to_queue, (san, move_stats, score_details) :: rest =>
    match rules.apply_san board_fen san with
    | none => processMovesLoop rules board_fen current_depth is_white_turn
        node children_to_queue rest
    | some child_fen =>
      let child_node : RepertoireNode :=
        .mk (some san) (some child_fen) (some move_stats) (some score_details)
          [] false none
      let node := node.add_child child_node
      if is_white_turn then
        processMovesLoop rules board_fen current_depth is_white_turn node
          (children_to_queue ++ [(child_node, child_fen, current_depth + 1, false)])
          rest
      else
        .error (PyError.nameError "position_threshold")

/-- `RepertoireBuilder._get_best_white_response`: comprehensive stats at
the position, then `analyze_position` and `get_best_move`. -/
noncomputable def _get_best_white_response (an : MoveAnalyzer)
    (rules : RulesEngine) (api : StatsApi) (board_fen : String)
    (min_rating max_rating : Nat) (time_controls : List String)
    (threshold : ℚ) : Option AnalyzedMove :=
  match api.getCompStats board_fen min_rating max_rating time_controls with
  | none => none
  | some position_data =>
    get_best_move (analyze_position an rules api position_data threshold
      board_fen min_rating max_rating time_controls)

/-- `RepertoireBuilder._process_node_bfs` (source lines 85–206): process
one dequeued node, mutating it (children, termination reason) and
returning the queue items for its accepted children.  The `.error` case
is the escaping `NameError` described at `processMovesLoop`. -/
noncomputable def _process_node_bfs (cfg : RepertoireBuilder)
    (an : MoveAnalyzer) (rules : RulesEngine) (api : StatsApi)
    (node : RepertoireNode) (board_fen : String)
    (current_depth max_depth : Nat)
    (first_move_threshold second_move_threshold third_move_threshold
      other_moves_threshold : ℚ)
    (min_rating max_rating : Nat) (time_controls : List String)
    (is_white_turn : Bool) : Except PyError (RepertoireNode × List QueueItem) :=
  match api.getStats board_fen min_rating max_rating time_controls true with
  | none => .ok (node.with_reason (some .apiError), [])
  | some position_data =>
    let fairness : Option TermReason :=
      if is_white_turn = false then
        let white_wins := position_data.white
        let draws := position_data.draws
        let black_wins := position_data.black
        let total_position_games := white_wins + draws + black_wins
        if 0 < total_position_games then
          let white_win_rate : ℚ := (white_wins : ℚ) / (total_position_games : ℚ)
          if cfg.white_win_rate_threshold < white_win_rate then
            some (.whiteWinRate white_win_rate cfg.white_win_rate_threshold)
          else none
        else none
      else none
    match fairness with
    | some r => .ok (node.with_reason (some r), [])
    | none =>
      if max_depth ≤ current_depth then
        .ok (node.with_reason (some .maxDepth), [])
      else if position_data.total_games < cfg.min_games then
        .ok (node.with_reason
          (some (.insufficientGames position_data.total_games cfg.min_games)), [])
      else
        let threshold := threshold_for_depth current_depth first_move_threshold
          second_move_threshold third_move_threshold other_moves_threshold
        let analyzed_moves := analyze_position an rules api position_data
          threshold board_fen min_rating max_rating time_controls
        match analyzed_moves with
        | [] => .ok (node.with_reason (some (.noMovesAboveThreshold threshold)), [])
        | _ :: _ =>
          match processMovesLoop rules board_fen current_depth is_white_turn
              node [] analyzed_moves with
          | .error e => .error e
          | .ok (node, children_to_queue) => .ok (node.sort_children, children_to_queue)

/-! ## Helper lemmas -/

theorem tryAttempts_attempts_le (net : Nat → Option RawResponse) (cache : Cache)
    (key : List Char) : ∀ ks : List Nat, (tryAttempts net cache key ks).attempts ≤ ks.length := by
  intro ks
  induction ks with
  | nil => simp [tryAttempts]
  | cons a rest ih =>
    simp only [tryAttempts]
    cases net a with
    | some d => simp
    | none =>
      cases rest with
      | nil => simp
      | cons b rest' =>
        simp only [List.length_cons] at ih ⊢
        omega

/-! ## Claims C10 and C8: the statistics client -/

/-- C10: `get_position_stats` is independent of its
`include_rating_breakdown` argument — for every network oracle, cache
state, fen, rating range and time-control list, two calls differing only
in that boolean return the same value (result, cache, attempts and
sleeps alike), because the flag is never read in the function body (and
the cache key does not depend on it). -/
theorem C10_flag_independent :
    ∀ (net : Nat → Option RawResponse) (cache : Cache) (fen : String)
      (min_rating max_rating : Nat) (time_controls : List String) (b₁ b₂ : Bool),
      get_position_stats net cache fen min_rating max_rating time_controls b₁ =
        get_position_stats net cache fen min_rating max_rating time_controls b₂ :=
  fun _ _ _ _ _ _ _ _ => rfl

/-- C8: the retry loop issues at most 3 outbound attempts; and for every
uncached query whose every attempt fails, `get_position_stats` issues
exactly 3 attempts with a 5-second delay between consecutive attempts
(two sleeps for three attempts), returns `none` rather than raising, and
leaves the cache unchanged. -/
theorem C8_retry_bound_and_exhaustion :
    (∀ (net : Nat → Option RawResponse) (cache : Cache) (fen : String)
      (min_rating max_rating : Nat) (time_controls : List String) (flag : Bool),
      (get_position_stats net cache fen min_rating max_rating time_controls flag).attempts ≤ 3) ∧
    (∀ (net : Nat → Option RawResponse) (cache : Cache) (fen : String)
      (min_rating max_rating : Nat) (time_controls : List String) (flag : Bool),
      cacheLookup cache (_get_cache_key fen min_rating max_rating time_controls) = none →
      (∀ i, i < 3 → net i = none) →
      get_position_stats net cache fen min_rating max_rating time_controls flag =
        ⟨none, cache, 3, [5, 5]⟩) := by
  constructor
  · intro net cache fen a b tcs flag
    simp only [get_position_stats]
    split
    · simp
    · simpa using tryAttempts_attempts_le net cache
        (_get_cache_key fen a b tcs) (List.range 3)
  · intro net cache fen a b tcs flag hmiss hnet
    have h3 : List.range 3 = [0, 1, 2] := by decide
    simp only [get_position_stats, hmiss, h3]
    simp [tryAttempts, hnet 0 (by omega), hnet 1 (by omega), hnet 2 (by omega)]

theorem C8_retry_bound_and_exhaustion_witness :
    get_position_stats (fun _ => none) [] "fen" 1600 2200 ["blitz"] true =
      ⟨none, [], 3, [5, 5]⟩ :=
  C8_retry_bound_and_exhaustion.2 (fun _ => none) [] "fen" 1600 2200 ["blitz"]
    true rfl (fun _ _ => rfl)

/-! ## Claims C2 and C3: the escaping NameError in `_process_node_bfs` -/

/-- Fixture rules engine for C2: at the position `"start"` the single
statistics move `"e5"` is legal and leads to `"starte5"`. -/
def rulesC2 : RulesEngine :=
  ⟨fun f s => if f = "start" ∧ s = "e5" then some "starte5" else none⟩

/-- Fixture position stats for C2: plenty of games, balanced outcome
(white-win share 10%), one reply played in all games. -/
def pdC2 : PositionStats :=
  { total_games := 100, white := 10, draws := 80, black := 10,
    moves := [("e5", ⟨50, 0, 50, 100⟩)] }

/-- Fixture stats client for C2: data for `"start"`, nothing for the
child position (so the sharpness sub-lookup degrades to 0). -/
def apiC2 : StatsApi :=
  ⟨fun f _ _ _ _ => if f = "start" then some pdC2 else none,
   fun _ _ _ _ => none⟩

/-- Fixture analyzer configuration (weights 0.5/0.3/0.2, API attached). -/
noncomputable def anC2 : MoveAnalyzer := ⟨1 / 2, 3 / 10, 1 / 5, true⟩

/-- A freshly dequeued node for C2 (no children, no reason yet). -/
def nodeC2 : RepertoireNode :=
  .mk (some "root") (some "start") none none [] false none

/-- C2: the claim fails on the code.  At an opponent-turn node
(`is_white_turn = false`) that passes every cutoff and whose statistics
contain one move the rules engine accepts, `_process_node_bfs` does not
return normally: it evaluates the undefined name `position_threshold`
(repertoire_builder.py line 169) and the resulting `NameError` — which
the loop's `except ValueError` does not catch — escapes the node's
processing. -/
theorem C2_nameerror_escapes_node_processing :
    _process_node_bfs ⟨0, 13 / 20⟩ anC2 rulesC2 apiC2 nodeC2 "start" 0 5
      0 0 0 0 1600 2200 ["blitz"] false =
      .error (PyError.nameError "position_threshold") := by
  unfold _process_node_bfs analyze_position
  simp [rulesC2, apiC2, pdC2, anC2, nodeC2, threshold_for_depth,
    processMovesLoop, get_high_rating_preference, RepertoireNode.add_child]
  norm_num

/-- Fixture rules engine for C3: black's reply `"d5"` is legal at
`"r3"`, and white's candidate response `"Nf3"` is legal at `"r3d5"`. -/
def rulesC3 : RulesEngine :=
  ⟨fun f s =>
    if f = "r3" ∧ s = "d5" then some "r3d5"
    else if f = "r3d5" ∧ s = "Nf3" then some "r3d5Nf3"
    else none⟩

/-- Fixture stats for the opponent-turn position `"r3"` of C3. -/
def pdC3 : PositionStats :=
  { total_games := 200, white := 60, draws := 80, black := 60,
    moves := [("d5", ⟨100, 0, 100, 200⟩)] }

/-- Fixture comprehensive stats for the position `"r3d5"` after black's
reply: a single dominant white response `"Nf3"`. -/
def pdC3reply : PositionStats :=
  { total_games := 150, white := 90, draws := 30, black := 30,
    moves := [("Nf3", ⟨90, 30, 30, 150⟩)] }

/-- Fixture stats client for C3: plain stats at `"r3"`, comprehensive
stats available at `"r3d5"` (a best white reply exists there). -/
def apiC3 : StatsApi :=
  ⟨fun f _ _ _ _ => if f = "r3" then some pdC3 else none,
   fun f _ _ _ => if f = "r3d5" then some pdC3reply else none⟩

/-- C3: the claim fails on the code.  At an opponent-turn node the
best-own-side-reply lookup is never performed: CPython raises
`NameError` while evaluating the call argument `position_threshold`
(repertoire_builder.py line 169), before `_get_best_white_response` is
entered, so no grandchild is attached or enqueued — even though, as the
second conjunct shows, `_get_best_white_response` at the resulting
position would have produced a best reply. -/
theorem C3_best_reply_lookup_never_reached :
    _process_node_bfs ⟨0, 13 / 20⟩ anC2 rulesC3 apiC3 nodeC2 "r3" 0 5
      0 0 0 0 1600 2200 ["blitz"] false =
      .error (PyError.nameError "position_threshold") ∧
    (_get_best_white_response anC2 rulesC3 apiC3 "r3d5" 1600 2200 ["blitz"]
      (0 : ℚ)).isSome = true := by
  constructor
  · unfold _process_node_bfs analyze_position
    simp [rulesC3, apiC3, pdC3, anC2, nodeC2, threshold_for_depth,
      processMovesLoop, get_high_rating_preference, RepertoireNode.add_child]
    norm_num
  · unfold _get_best_white_response analyze_position
    simp [rulesC3, apiC3, pdC3reply, anC2, get_best_move,
      get_high_rating_preference]

/-! ## Node bookkeeping lemmas -/

@[simp] theorem RepertoireNode.children_with_reason (n : RepertoireNode)
    (r : Option TermReason) : (n.with_reason r).children = n.children := by
  cases n; rfl

@[simp] theorem RepertoireNode.reason_with_reason (n : RepertoireNode)
    (r : Option TermReason) : (n.with_reason r).termination_reason = r := by
  cases n; rfl

@[simp] theorem RepertoireNode.children_with_children (n : RepertoireNode)
    (c : List RepertoireNode) : (n.with_children c).children = c := by
  cases n; rfl

@[simp] theorem RepertoireNode.reason_with_children (n : RepertoireNode)
    (c : List RepertoireNode) :
    (n.with_children c).termination_reason = n.termination_reason := by
  cases n; rfl

@[simp] theorem RepertoireNode.is_mainline_with_mainline (n : RepertoireNode)
    (b : Bool) : (n.with_mainline b).is_mainline = b := by
  cases n; rfl

@[simp] theorem RepertoireNode.score_details_with_mainline (n : RepertoireNode)
    (b : Bool) : (n.with_mainline b).score_details = n.score_details := by
  cases n; rfl

@[simp] theorem RepertoireNode.score_with_mainline (n : RepertoireNode)
    (b : Bool) : (n.with_mainline b).score = n.score := by
  simp [RepertoireNode.score]

@[simp] theorem RepertoireNode.reason_add_child (n c : RepertoireNode) :
    (n.add_child c).termination_reason = n.termination_reason := by
  cases n
  simp only [RepertoireNode.add_child]
  split <;> simp [RepertoireNode.with_children, RepertoireNode.termination_reason]

theorem RepertoireNode.children_length_add_child (n c : RepertoireNode) :
    (n.add_child c).children.length = n.children.length + 1 := by
  cases n with
  | mk m f ms sd ch b r =>
    simp only [RepertoireNode.add_child, RepertoireNode.children]
    rcases ch with _ | ⟨c₀, _ | ⟨c₁, t⟩⟩ <;>
      first
        | (simp only [List.nil_append, RepertoireNode.with_children,
            RepertoireNode.children]; split <;> rfl)
        | simp [RepertoireNode.with_children, RepertoireNode.children]

@[simp] theorem RepertoireNode.reason_sort_children (n : RepertoireNode) :
    n.sort_children.termination_reason = n.termination_reason := by
  simp [RepertoireNode.sort_children]

@[simp] theorem RepertoireNode.children_sort_children (n : RepertoireNode) :
    n.sort_children.children = sort_children_list n.children := by
  simp [RepertoireNode.sort_children]


/-! ## Case analysis of `_process_node_bfs` -/

/-- The fairness branch of `_process_node_bfs`: at an opponent-turn node
with games recorded and white-win share above the ceiling, the node is
terminated with the white-win-rate reason and no queue items. -/
theorem process_fairness (cfg : RepertoireBuilder) (an : MoveAnalyzer)
    (rules : RulesEngine) (api : StatsApi) (node : RepertoireNode)
    (fen : String) (d maxd : Nat) (t1 t2 t3 t4 : ℚ) (minR maxR : Nat)
    (tcs : List String) (pd : PositionStats)
    (hapi : api.getStats fen minR maxR tcs true = some pd)
    (hpos : 0 < pd.white + pd.draws + pd.black)
    (hrate : cfg.white_win_rate_threshold <
      (pd.white : ℚ) / ((pd.white + pd.draws + pd.black : Nat) : ℚ)) :
    _process_node_bfs cfg an rules api node fen d maxd t1 t2 t3 t4 minR maxR tcs false =
      .ok (node.with_reason (some (.whiteWinRate
        ((pd.white : ℚ) / ((pd.white + pd.draws + pd.black : Nat) : ℚ))
        cfg.white_win_rate_threshold)), []) := by
  unfold _process_node_bfs
  rw [hapi]
  simp only [if_pos hpos, if_pos hrate, eq_self_iff_true, if_true]

/-- Every run of `_process_node_bfs` either terminates the node with
some reason (a fairness reason only at opponent-turn nodes) and no queue
items, or runs the move loop to completion and sorts the children, or
raises.  -/
theorem process_cases (cfg : RepertoireBuilder) (an : MoveAnalyzer)
    (rules : RulesEngine) (api : StatsApi) (node : RepertoireNode)
    (fen : String) (d maxd : Nat) (t1 t2 t3 t4 : ℚ) (minR maxR : Nat)
    (tcs : List String) (iwt : Bool)
    (res : Except PyError (RepertoireNode × List QueueItem))
    (h : _process_node_bfs cfg an rules api node fen d maxd t1 t2 t3 t4
      minR maxR tcs iwt = res) :
    (∃ r, res = .ok (node.with_reason (some r), []) ∧
      ∀ rate thr, r = .whiteWinRate rate thr → iwt = false) ∨
    (∃ pd node₁ q, api.getStats fen minR maxR tcs true = some pd ∧
      analyze_position an rules api pd (threshold_for_depth d t1 t2 t3 t4)
        fen minR maxR tcs ≠ [] ∧
      processMovesLoop rules fen d iwt node []
        (analyze_position an rules api pd (threshold_for_depth d t1 t2 t3 t4)
          fen minR maxR tcs) = .ok (node₁, q) ∧
      res = .ok (node₁.sort_children, q)) ∨
    (∃ e, res = .error e) := by
  subst h
  unfold _process_node_bfs
  cases hapi : api.getStats fen minR maxR tcs true with
  | none => exact Or.inl ⟨.apiError, rfl, by simp⟩
  | some pd =>
    simp only
    split
    · rename_i r heq
      refine Or.inl ⟨r, rfl, ?_⟩
      intro rate thr hr
      cases hiw : iwt with
      | false => rfl
      | true =>
        rw [hiw] at heq
        simp at heq
    · split
      · exact Or.inl ⟨.maxDepth, rfl, by simp⟩
      · split
        · exact Or.inl ⟨.insufficientGames pd.total_games cfg.min_games, rfl, by simp⟩
        · split
          · rename_i hana
            exact Or.inl ⟨.noMovesAboveThreshold _, rfl, by simp⟩
          · rename_i a l hana
            split
            · rename_i e heq
              exact Or.inr (Or.inr ⟨e, rfl⟩)
            · rename_i node1 q1 heq
              exact Or.inr (Or.inl ⟨pd, node1, q1, rfl, by rw [hana]; simp,
                heq, rfl⟩)

theorem processMovesLoop_ok_spec (rules : RulesEngine) (fen : String)
    (d : Nat) (iwt : Bool) :
    ∀ (ms : List AnalyzedMove) (node : RepertoireNode) (acc : List QueueItem)
      (node' : RepertoireNode) (q : List QueueItem),
      processMovesLoop rules fen d iwt node acc ms = .ok (node', q) →
      node'.termination_reason = node.termination_reason ∧
      node.children.length ≤ node'.children.length ∧
      (node'.children.length = node.children.length ↔
        ∀ m ∈ ms, rules.apply_san fen m.1 = none) ∧
      ((∀ m ∈ ms, rules.apply_san fen m.1 = none) → node' = node ∧ q = acc) := by
  intro ms
  induction ms with
  | nil =>
    intro node acc node' q h
    simp only [processMovesLoop, Except.ok.injEq, Prod.mk.injEq] at h
    obtain ⟨h1, h2⟩ := h
    subst h1; subst h2
    simp
  | cons m rest ih =>
    obtain ⟨san, mst, sd⟩ := m
    intro node acc node' q h
    simp only [processMovesLoop] at h
    cases happ : rules.apply_san fen san with
    | none =>
      simp only [happ] at h
      obtain ⟨hr, hlen, hiff, hid⟩ := ih node acc node' q h
      refine ⟨hr, hlen, ?_, ?_⟩
      · rw [hiff, List.forall_mem_cons]
        simp [happ]
      · intro hall
        exact hid (fun m hm => hall m (List.mem_cons_of_mem _ hm))
    | some cf =>
      simp only [happ] at h
      split at h
      · obtain ⟨hr, hlen, hiff, hid⟩ := ih _ _ node' q h
        have hlen1 := RepertoireNode.children_length_add_child node
          (.mk (some san) (some cf) (some mst) (some sd) [] false none)
        rw [hlen1] at hlen hiff
        refine ⟨by rw [hr, RepertoireNode.reason_add_child], by omega, ?_, ?_⟩
        · constructor
          · intro hl
            exfalso
            omega
          · intro hall
            exfalso
            have := hall (san, mst, sd) (List.mem_cons_self _ _)
            simp [happ] at this
        · intro hall
          exfalso
          have := hall (san, mst, sd) (List.mem_cons_self _ _)
          simp [happ] at this
      · exact Except.noConfusion h

/-! ## Claim C9: the fairness cutoff -/

/-- C9: for every node processed with `is_white_turn = false` whose
aggregate white-win share `white / (white + draws + black)` strictly
exceeds the configured ceiling, `_process_node_bfs` terminates the node
with zero children and the termination reason citing the observed rate
versus the ceiling (first conjunct); and a node processed with
`is_white_turn = true` is never terminated with a white-win-rate reason
(second conjunct). -/
theorem C9_fairness_cutoff :
    (∀ (cfg : RepertoireBuilder) (an : MoveAnalyzer) (rules : RulesEngine)
      (api : StatsApi) (node : RepertoireNode) (board_fen : String)
      (current_depth max_depth : Nat) (t1 t2 t3 t4 : ℚ)
      (min_rating max_rating : Nat) (time_controls : List String)
      (pd : PositionStats),
      node.children = [] →
      api.getStats board_fen min_rating max_rating time_controls true = some pd →
      0 < pd.white + pd.draws + pd.black →
      cfg.white_win_rate_threshold <
        (pd.white : ℚ) / ((pd.white + pd.draws + pd.black : Nat) : ℚ) →
      ∃ node',
        _process_node_bfs cfg an rules api node board_fen current_depth
          max_depth t1 t2 t3 t4 min_rating max_rating time_controls false =
          .ok (node', []) ∧
        node'.children = [] ∧
        node'.termination_reason = some (.whiteWinRate
          ((pd.white : ℚ) / ((pd.white + pd.draws + pd.black : Nat) : ℚ))
          cfg.white_win_rate_threshold)) ∧
    (∀ (cfg : RepertoireBuilder) (an : MoveAnalyzer) (rules : RulesEngine)
      (api : StatsApi) (node : RepertoireNode) (board_fen : String)
      (current_depth max_depth : Nat) (t1 t2 t3 t4 : ℚ)
      (min_rating max_rating : Nat) (time_controls : List String)
      (node' : RepertoireNode) (q : List QueueItem),
      node.termination_reason = none →
      _process_node_bfs cfg an rules api node board_fen current_depth
        max_depth t1 t2 t3 t4 min_rating max_rating time_controls true =
        .ok (node', q) →
      ∀ rate thr, node'.termination_reason ≠ some (.whiteWinRate rate thr)) := by
  constructor
  · intro cfg an rules api node fen d maxd t1 t2 t3 t4 minR maxR tcs pd
      hch hapi hpos hrate
    exact ⟨node.with_reason (some (.whiteWinRate
        ((pd.white : ℚ) / ((pd.white + pd.draws + pd.black : Nat) : ℚ))
        cfg.white_win_rate_threshold)),
      process_fairness cfg an rules api node fen d maxd t1 t2 t3 t4 minR maxR
        tcs pd hapi hpos hrate, by simp [hch], by simp⟩
  · intro cfg an rules api node fen d maxd t1 t2 t3 t4 minR maxR tcs node' q
      hreason hrun rate thr
    rcases process_cases cfg an rules api node fen d maxd t1 t2 t3 t4 minR
        maxR tcs true _ hrun with
      ⟨r, hres, hwrf⟩ | ⟨pd, node₁, q₁, hapi, hne, hloop, hres⟩ | ⟨e, hres⟩
    · simp only [Except.ok.injEq, Prod.mk.injEq] at hres
      rcases hres with ⟨hnode, -⟩
      subst hnode
      simp only [RepertoireNode.reason_with_reason, ne_eq, Option.some.injEq]
      intro hr
      exact Bool.noConfusion (hwrf rate thr hr)
    · simp only [Except.ok.injEq, Prod.mk.injEq] at hres
      rcases hres with ⟨hnode, -⟩
      subst hnode
      have := (processMovesLoop_ok_spec rules fen d true _ node [] node₁ q₁ hloop).1
      simp [this, hreason]
    · exact absurd hres (by simp)

/-- Fixture stats client for the C9 witness: the spec's example stats
(white 700, draws 200, black 100) at the opponent-turn position. -/
def apiC9 : StatsApi :=
  ⟨fun f _ _ _ _ =>
    if f = "pos9" then
      some { total_games := 1000, white := 700, draws := 200, black := 100,
             moves := [] }
    else none,
   fun _ _ _ _ => none⟩

theorem C9_fairness_cutoff_witness :
    ∃ node',
      _process_node_bfs ⟨0, 13 / 20⟩ anC2 rulesC2 apiC9
        (.mk (some "root") (some "pos9") none none [] false none) "pos9" 0 5
        0 0 0 0 1600 2200 ["blitz"] false = .ok (node', []) ∧
      node'.children = [] ∧
      node'.termination_reason = some (.whiteWinRate ((700 : ℚ) / ((1000 : Nat) : ℚ)) (13 / 20)) :=
  C9_fairness_cutoff.1 ⟨0, 13 / 20⟩ anC2 rulesC2 apiC9
    (.mk (some "root") (some "pos9") none none [] false none) "pos9" 0 5
    0 0 0 0 1600 2200 ["blitz"]
    { total_games := 1000, white := 700, draws := 200, black := 100, moves := [] }
    rfl rfl (by norm_num) (by norm_num)

/-! ## Sorting lemmas for `sort_children` -/

instance : IsTotal RepertoireNode scoreGe :=
  ⟨fun a b => le_total b.score a.score⟩

instance : IsTrans RepertoireNode scoreGe :=
  ⟨fun _ _ _ h1 h2 => le_trans h2 h1⟩

theorem insertionSort_scoreGe_head :
    ∀ l : List RepertoireNode, l ≠ [] →
      ∃ pre m0 post t, l = pre ++ m0 :: post ∧
        List.insertionSort scoreGe l = m0 :: t ∧
        ∀ y ∈ pre, y.score < m0.score := by
  intro l
  induction l with
  | nil => intro h; exact absurd rfl h
  | cons a l ih =>
    intro _
    cases l with
    | nil =>
      exact ⟨[], a, [], [], by simp, rfl, by simp⟩
    | cons b l' =>
      obtain ⟨pre, m0, post, t, hdec, hsort, hpre⟩ := ih (by simp)
      have h1 : List.insertionSort scoreGe (a :: b :: l') =
          List.orderedInsert scoreGe a (List.insertionSort scoreGe (b :: l')) := rfl
      by_cases hge : scoreGe a m0
      · refine ⟨[], a, b :: l', m0 :: t, by simp, ?_, by simp⟩
        rw [h1, hsort]
        simp only [List.orderedInsert, if_pos hge]
      · refine ⟨a :: pre, m0, post, List.orderedInsert scoreGe a t, ?_, ?_, ?_⟩
        · simp [hdec]
        · rw [h1, hsort]
          simp only [List.orderedInsert, if_neg hge]
        · intro y hy
          rcases List.mem_cons.mp hy with hy | hy
          · subst hy
            exact lt_of_not_le hge
          · exact hpre y hy

theorem sort_children_list_length (l : List RepertoireNode) :
    (sort_children_list l).length = l.length := by
  unfold sort_children_list
  have hlen : (List.insertionSort scoreGe l).length = l.length :=
    (List.perm_insertionSort scoreGe l).length_eq
  cases hs : List.insertionSort scoreGe l with
  | nil =>
    rw [hs] at hlen
    exact hlen
  | cons h t =>
    rw [hs] at hlen
    simp only [List.length_cons, List.length_map] at hlen ⊢
    omega

theorem sort_children_list_spec (l : List RepertoireNode) (hl : l ≠ []) :
    ∃ pre m0 post t, l = pre ++ m0 :: post ∧
      sort_children_list l = m0.with_mainline true :: t ∧
      (∀ x ∈ t, x.is_mainline = false) ∧
      (∀ x ∈ sort_children_list l, x.score ≤ m0.score) ∧
      (∀ y ∈ pre, y.score < m0.score) ∧
      ((sort_children_list l).filter (fun c => c.is_mainline)).length = 1 := by
  obtain ⟨pre, m0, post, t, hdec, hsort, hpre⟩ := insertionSort_scoreGe_head l hl
  have hsorted := List.sorted_insertionSort scoreGe l
  rw [hsort] at hsorted
  have hmax : ∀ x ∈ m0 :: t, x.score ≤ m0.score := by
    intro x hx
    rcases List.mem_cons.mp hx with hx | hx
    · subst hx; exact le_refl _
    · exact List.rel_of_sorted_cons hsorted x hx
  have hlist : sort_children_list l =
      m0.with_mainline true :: t.map (fun c => c.with_mainline false) := by
    unfold sort_children_list
    rw [hsort]
  refine ⟨pre, m0, post, t.map (fun c => c.with_mainline false), hdec, hlist,
    ?_, ?_, hpre, ?_⟩
  · intro x hx
    obtain ⟨y, _, hy⟩ := List.mem_map.mp hx
    rw [← hy]
    simp
  · intro x hx
    rw [hlist] at hx
    rcases List.mem_cons.mp hx with hx | hx
    · subst hx; simp
    · obtain ⟨y, hy0, hy⟩ := List.mem_map.mp hx
      rw [← hy]
      simpa using hmax y (List.mem_cons_of_mem _ hy0)
  · rw [hlist]
    rw [List.filter_cons_of_pos (by simp)]
    have : (t.map (fun c => c.with_mainline false)).filter (fun c => c.is_mainline) = [] := by
      rw [List.filter_eq_nil_iff]
      intro a ha
      obtain ⟨y, _, hy⟩ := List.mem_map.mp ha
      rw [← hy]
      simp
    rw [this]
    rfl

/-! ## Claim C4: the mainline invariant -/

/-- C4: (first conjunct) `sort_children` on a node with a nonempty
children list leaves exactly one child flagged mainline — the new head —
and that head is a child of maximal score, namely the first child of
maximal score in the pre-sort encounter order (every child strictly
before it in the original list has strictly smaller score); (second
conjunct) consequently, every node whose `_process_node_bfs` processing
completes with at least one child has exactly one mainline child, and it
has the maximum score among the children. -/
theorem C4_mainline_invariant :
    (∀ l : List RepertoireNode, l ≠ [] →
      ∃ pre m0 post t, l = pre ++ m0 :: post ∧
        sort_children_list l = m0.with_mainline true :: t ∧
        ((sort_children_list l).filter (fun c => c.is_mainline)).length = 1 ∧
        (∀ x ∈ sort_children_list l, x.score ≤ m0.score) ∧
        (∀ y ∈ pre, y.score < m0.score)) ∧
    (∀ (cfg : RepertoireBuilder) (an : MoveAnalyzer) (rules : RulesEngine)
      (api : StatsApi) (node : RepertoireNode) (board_fen : String)
      (current_depth max_depth : Nat) (t1 t2 t3 t4 : ℚ)
      (min_rating max_rating : Nat) (time_controls : List String)
      (iwt : Bool) (node' : RepertoireNode) (q : List QueueItem),
      node.children = [] →
      _process_node_bfs cfg an rules api node board_fen current_depth
        max_depth t1 t2 t3 t4 min_rating max_rating time_controls iwt =
        .ok (node', q) →
      node'.children ≠ [] →
      (node'.children.filter (fun c => c.is_mainline)).length = 1 ∧
      ∃ m t, node'.children = m :: t ∧ m.is_mainline = true ∧
        ∀ x ∈ node'.children, x.score ≤ m.score) := by
  constructor
  · intro l hl
    obtain ⟨pre, m0, post, t, hdec, hlist, hflags, hmax, hpre, hone⟩ :=
      sort_children_list_spec l hl
    exact ⟨pre, m0, post, t, hdec, hlist, hone, hmax, hpre⟩
  · intro cfg an rules api node fen d maxd t1 t2 t3 t4 minR maxR tcs iwt
      node' q hch hrun hne
    rcases process_cases cfg an rules api node fen d maxd t1 t2 t3 t4 minR
        maxR tcs iwt _ hrun with
      ⟨r, hres, -⟩ | ⟨pd, node₁, q₁, hapi, hana, hloop, hres⟩ | ⟨e, hres⟩
    · simp only [Except.ok.injEq, Prod.mk.injEq] at hres
      rcases hres with ⟨hnode, -⟩
      subst hnode
      simp [hch] at hne
    · simp only [Except.ok.injEq, Prod.mk.injEq] at hres
      rcases hres with ⟨hnode, -⟩
      subst hnode
      rw [RepertoireNode.children_sort_children] at hne ⊢
      have hne₁ : node₁.children ≠ [] := by
        intro h0
        rw [h0] at hne
        exact hne (by unfold sort_children_list; rfl)
      obtain ⟨pre, m0, post, t, hdec, hlist, hflags, hmax, hpre, hone⟩ :=
        sort_children_list_spec node₁.children hne₁
      refine ⟨hone, m0.with_mainline true, t, hlist, by simp, ?_⟩
      intro x hx
      simpa using hmax x hx
    · exact absurd hres (by simp)

theorem C4_mainline_invariant_witness :
    ∃ pre m0 post t,
      [RepertoireNode.mk (some "e4") (some "w1") none none [] false none] =
        pre ++ m0 :: post ∧
      sort_children_list
        [RepertoireNode.mk (some "e4") (some "w1") none none [] false none] =
        m0.with_mainline true :: t ∧
      ((sort_children_list
        [RepertoireNode.mk (some "e4") (some "w1") none none [] false none]).filter
          (fun c => c.is_mainline)).length = 1 ∧
      (∀ x ∈ sort_children_list
        [RepertoireNode.mk (some "e4") (some "w1") none none [] false none],
        x.score ≤ m0.score) ∧
      (∀ y ∈ pre, y.score < m0.score) :=
  C4_mainline_invariant.1
    [RepertoireNode.mk (some "e4") (some "w1") none none [] false none]
    (by simp)

/-! ## Claim C1: zero children iff termination reason -/

/-- Fixture rules engine for the C1 counterexample: it rejects every
move the statistics source reports. -/
def rulesC1 : RulesEngine := ⟨fun _ _ => none⟩

/-- Fixture stats for the C1 counterexample: a healthy position whose
single reported move is nonetheless rejected by the rules engine. -/
def pdC1 : PositionStats :=
  { total_games := 100, white := 40, draws := 20, black := 40,
    moves := [("Zz9", ⟨50, 0, 50, 100⟩)] }

/-- Fixture stats client for the C1 counterexample. -/
def apiC1 : StatsApi :=
  ⟨fun f _ _ _ _ => if f = "c1pos" then some pdC1 else none,
   fun _ _ _ _ => none⟩

/-- C1 counterexample: the claimed invariant fails on the code.  At this
concrete white-turn node every cutoff passes and one candidate move is
analyzed, but the rules engine rejects it (`except ValueError: continue`),
so `_process_node_bfs` completes normally with zero children and **no**
termination reason set — contradicting "a node produces zero children if
and only if a termination reason was recorded on it". -/
theorem C1_counterexample :
    _process_node_bfs ⟨0, 13 / 20⟩ anC2 rulesC1 apiC1
      (.mk (some "root") (some "c1pos") none none [] false none) "c1pos" 0 5
      0 0 0 0 1600 2200 ["blitz"] true =
      .ok (.mk (some "root") (some "c1pos") none none [] false none, []) ∧
    (RepertoireNode.mk (some "root") (some "c1pos") none none [] false none).children = [] ∧
    (RepertoireNode.mk (some "root") (some "c1pos") none none [] false none).termination_reason = none := by
  refine ⟨?_, rfl, rfl⟩
  unfold _process_node_bfs analyze_position
  simp [rulesC1, apiC1, pdC1, anC2, threshold_for_depth, processMovesLoop,
    get_high_rating_preference, RepertoireNode.sort_children,
    sort_children_list, RepertoireNode.with_children]

/-- C1 (amended): for every node whose processing completes
(`_process_node_bfs` returns `.ok`), either the node has at least one
child and no termination reason; or it has zero children and exactly one
termination reason; or — the single exception the counterexample forces —
it has zero children **and no reason** because candidate moves passed the
threshold but the rules engine rejected every one of them. -/
theorem C1_children_iff_reason :
    ∀ (cfg : RepertoireBuilder) (an : MoveAnalyzer) (rules : RulesEngine)
      (api : StatsApi) (node : RepertoireNode) (board_fen : String)
      (current_depth max_depth : Nat) (t1 t2 t3 t4 : ℚ)
      (min_rating max_rating : Nat) (time_controls : List String)
      (iwt : Bool) (node' : RepertoireNode) (q : List QueueItem),
      node.children = [] →
      node.termination_reason = none →
      _process_node_bfs cfg an rules api node board_fen current_depth
        max_depth t1 t2 t3 t4 min_rating max_rating time_controls iwt =
        .ok (node', q) →
      (node'.children ≠ [] ∧ node'.termination_reason = none) ∨
      (node'.children = [] ∧ ∃ r, node'.termination_reason = some r) ∨
      (node'.children = [] ∧ node'.termination_reason = none ∧
        ∃ pd, api.getStats board_fen min_rating max_rating time_controls true =
            some pd ∧
          analyze_position an rules api pd
            (threshold_for_depth current_depth t1 t2 t3 t4) board_fen
            min_rating max_rating time_controls ≠ [] ∧
          ∀ m ∈ analyze_position an rules api pd
            (threshold_for_depth current_depth t1 t2 t3 t4) board_fen
            min_rating max_rating time_controls,
            rules.apply_san board_fen m.1 = none) := by
  intro cfg an rules api node fen d maxd t1 t2 t3 t4 minR maxR tcs iwt
    node' q hch hre hrun
  rcases process_cases cfg an rules api node fen d maxd t1 t2 t3 t4 minR
      maxR tcs iwt _ hrun with
    ⟨r, hres, -⟩ | ⟨pd, node₁, q₁, hapi, hana, hloop, hres⟩ | ⟨e, hres⟩
  · simp only [Except.ok.injEq, Prod.mk.injEq] at hres
    rcases hres with ⟨hnode, -⟩
    subst hnode
    exact Or.inr (Or.inl ⟨by simp [hch], r, by simp⟩)
  · simp only [Except.ok.injEq, Prod.mk.injEq] at hres
    rcases hres with ⟨hnode, -⟩
    subst hnode
    obtain ⟨hrsn, hlen, hiff, -⟩ :=
      processMovesLoop_ok_spec rules fen d iwt _ node [] node₁ q₁ hloop
    rw [hch] at hiff
    simp only [List.length_nil] at hiff
    by_cases h0 : node₁.children = []
    · refine Or.inr (Or.inr ⟨?_, ?_, pd, hapi, hana, ?_⟩)
      · rw [RepertoireNode.children_sort_children, h0]
        unfold sort_children_list
        rfl
      · simp [hrsn, hre]
      · exact hiff.mp (by rw [h0]; rfl)
    · refine Or.inl ⟨?_, by simp [hrsn, hre]⟩
      rw [RepertoireNode.children_sort_children]
      intro hcon
      apply h0
      have := sort_children_list_length node₁.children
      rw [hcon] at this
      exact List.length_eq_zero.mp this.symm
  · exact absurd hres (by simp)

/-- Fixture stats client for the C1 witness: no data at all, so the
node terminates with the API-error reason. -/
def apiNone : StatsApi := ⟨fun _ _ _ _ _ => none, fun _ _ _ _ => none⟩

theorem C1_children_iff_reason_witness :
    ((RepertoireNode.mk (some "root") (some "w2") none none [] false
        (some .apiError)).children ≠ [] ∧
      (RepertoireNode.mk (some "root") (some "w2") none none [] false
        (some .apiError)).termination_reason = none) ∨
    ((RepertoireNode.mk (some "root") (some "w2") none none [] false
        (some .apiError)).children = [] ∧
      ∃ r, (RepertoireNode.mk (some "root") (some "w2") none none [] false
        (some .apiError)).termination_reason = some r) ∨
    ((RepertoireNode.mk (some "root") (some "w2") none none [] false
        (some .apiError)).children = [] ∧
      (RepertoireNode.mk (some "root") (some "w2") none none [] false
        (some .apiError)).termination_reason = none ∧
      ∃ pd, apiNone.getStats "w2" 1600 2200 ["blitz"] true = some pd ∧
        analyze_position anC2 rulesC1 apiNone pd
          (threshold_for_depth 0 0 0 0 0) "w2" 1600 2200 ["blitz"] ≠ [] ∧
        ∀ m ∈ analyze_position anC2 rulesC1 apiNone pd
          (threshold_for_depth 0 0 0 0 0) "w2" 1600 2200 ["blitz"],
          rulesC1.apply_san "w2" m.1 = none) :=
  C1_children_iff_reason ⟨0, 13 / 20⟩ anC2 rulesC1 apiNone
    (.mk (some "root") (some "w2") none none [] false none) "w2" 0 5
    0 0 0 0 1600 2200 ["blitz"] true
    (.mk (some "root") (some "w2") none none [] false (some .apiError)) []
    rfl rfl rfl

/-! ## Claim C7: the composite move score -/

/-- C7: `calculate_move_score` returns the all-zero `ScoreDetails`
carrying the configured weights when `total_games = 0` or the move's
`games = 0`; otherwise its high-rating preference component is
`clamp((x + 0.2)/0.4, 0, 1)` and its `total_score` is
`expected_score·win_rate_weight + normalized_pref·popularity_weight +
sharpness·sharpness_weight`; and on the spec's example components
(0.6, 0.5, 0.2 with weights 0.5, 0.3, 0.2) that weighted sum is 0.49. -/
theorem C7_move_score :
    (∀ (an : MoveAnalyzer) (rules : RulesEngine) (api : StatsApi)
      (move_stats : MoveStats) (total_games : Nat)
      (high_rating_preference : ℚ) (board_fen move_san : String)
      (min_rating max_rating : Nat) (time_controls : List String),
      total_games = 0 ∨ move_stats.games = 0 →
      calculate_move_score an rules api move_stats total_games
        high_rating_preference board_fen move_san min_rating max_rating
        time_controls = zeroScoreDetails an) ∧
    (∀ (an : MoveAnalyzer) (rules : RulesEngine) (api : StatsApi)
      (move_stats : MoveStats) (total_games : Nat)
      (high_rating_preference : ℚ) (board_fen move_san : String)
      (min_rating max_rating : Nat) (time_controls : List String),
      total_games ≠ 0 → move_stats.games ≠ 0 →
      (calculate_move_score an rules api move_stats total_games
        high_rating_preference board_fen move_san min_rating max_rating
        time_controls).high_rating_pref =
          max 0 (min 1 (((high_rating_preference : ℝ) + 0.2) / 0.4)) ∧
      (calculate_move_score an rules api move_stats total_games
        high_rating_preference board_fen move_san min_rating max_rating
        time_controls).sharpness =
          calculate_entropy_sharpness an rules api board_fen move_san
            min_rating max_rating time_controls ∧
      (calculate_move_score an rules api move_stats total_games
        high_rating_preference board_fen move_san min_rating max_rating
        time_controls).total_score =
          (move_stats.expected_score : ℝ) * an.win_rate_weight +
          max 0 (min 1 (((high_rating_preference : ℝ) + 0.2) / 0.4)) *
            an.popularity_weight +
          calculate_entropy_sharpness an rules api board_fen move_san
            min_rating max_rating time_controls * an.sharpness_weight) ∧
    weightedTotal 0.6 0.5 0.2 0.5 0.3 0.2 = 0.49 := by
  refine ⟨?_, ?_, ?_⟩
  · intro an rules api ms tg pref bf msan minR maxR tcs h
    unfold calculate_move_score
    rw [if_pos h]
  · intro an rules api ms tg pref bf msan minR maxR tcs h1 h2
    unfold calculate_move_score
    rw [if_neg (by tauto)]
    exact ⟨rfl, rfl, by simp [weightedTotal]⟩
  · norm_num [weightedTotal]

theorem C7_move_score_witness :
    calculate_move_score anC2 rulesC1 apiNone ⟨3, 0, 7, 0⟩ 50 0 "f" "m"
      1600 2200 ["blitz"] = zeroScoreDetails anC2 ∧
    (calculate_move_score anC2 rulesC1 apiNone ⟨6, 0, 4, 10⟩ 10 0 "f" "m"
      1600 2200 ["blitz"]).total_score =
      ((MoveStats.mk 6 0 4 10).expected_score : ℝ) * anC2.win_rate_weight +
      max 0 (min 1 ((((0 : ℚ) : ℝ) + 0.2) / 0.4)) * anC2.popularity_weight +
      calculate_entropy_sharpness anC2 rulesC1 apiNone "f" "m" 1600 2200
        ["blitz"] * anC2.sharpness_weight :=
  ⟨C7_move_score.1 anC2 rulesC1 apiNone ⟨3, 0, 7, 0⟩ 50 0 "f" "m" 1600 2200
      ["blitz"] (Or.inr rfl),
    (C7_move_score.2.1 anC2 rulesC1 apiNone ⟨6, 0, 4, 10⟩ 10 0 "f" "m" 1600
      2200 ["blitz"] (by decide) (by decide)).2.2⟩

/-! ## Claim C6: entropy sharpness boundary cases -/

/-- Every result of `calculate_entropy_sharpness` is literally `0`, `1`,
or a clamped value `max 0 (min 1 x)`. -/
theorem entropy_sharpness_cases (an : MoveAnalyzer) (rules : RulesEngine)
    (api : StatsApi) (bf ms : String) (minR maxR : Nat) (tcs : List String) :
    calculate_entropy_sharpness an rules api bf ms minR maxR tcs = 0 ∨
    calculate_entropy_sharpness an rules api bf ms minR maxR tcs = 1 ∨
    ∃ x, calculate_entropy_sharpness an rules api bf ms minR maxR tcs =
      max 0 (min 1 x) := by
  simp only [calculate_entropy_sharpness]
  split
  · exact Or.inl rfl
  · split
    · exact Or.inl rfl
    · split
      · exact Or.inl rfl
      · split
        · exact Or.inl rfl
        · split
          · exact Or.inr (Or.inl rfl)
          · split
            · exact Or.inr (Or.inl rfl)
            · exact Or.inr (Or.inr ⟨_, rfl⟩)

/-- Fixture stats for the C6 counterexample: exactly one recorded reply,
but only 40 games. -/
def pdC6 : PositionStats :=
  { total_games := 40, white := 20, draws := 0, black := 20,
    moves := [("Qd8", ⟨20, 0, 20, 40⟩)] }

/-- Fixture rules engine for the C6 counterexample. -/
def rulesC6 : RulesEngine :=
  ⟨fun f s => if f = "c6" ∧ s = "mv" then some "c6r" else none⟩

/-- Fixture stats client for the C6 counterexample. -/
def apiC6 : StatsApi :=
  ⟨fun f _ _ _ _ => if f = "c6r" then some pdC6 else none,
   fun _ _ _ _ => none⟩

/-- C6 counterexample: the claim's conjunct "for every resulting
position with exactly one recorded reply the result is 1" is false as
stated: at this resulting position with exactly one recorded reply but
`total_games = 40 < 50`, the insufficient-sample check fires first and
the result is 0, not 1. -/
theorem C6_counterexample :
    pdC6.moves.length = 1 ∧
    calculate_entropy_sharpness anC2 rulesC6 apiC6 "c6" "mv" 1600 2200
      ["blitz"] = 0 ∧
    (0 : ℝ) ≠ 1 := by
  refine ⟨rfl, ?_, by norm_num⟩
  unfold calculate_entropy_sharpness
  simp [rulesC6, apiC6, pdC6, anC2]

/-- C6 (amended): with an API client attached and the move applying to a
resulting position whose statistics are available: (1) `total_games < 50`
gives sharpness 0 regardless of the move distribution; (2) exactly one
recorded reply **and** `total_games ≥ 50` gives sharpness 1 (the
insufficient-sample check precedes the one-reply check, which the
counterexample shows is needed); (3) exactly two replies splitting the
games 50/50 with `total_games ≥ 50` give normalized entropy 1 and hence
sharpness 0; (4) the result always lies in `[0, 1]`. -/
theorem C6_entropy_boundaries :
    (∀ (an : MoveAnalyzer) (rules : RulesEngine) (api : StatsApi)
      (bf ms : String) (minR maxR : Nat) (tcs : List String) (tf : String)
      (pd : PositionStats),
      rules.apply_san bf ms = some tf →
      api.getStats tf minR maxR tcs false = some pd →
      pd.total_games < 50 →
      calculate_entropy_sharpness an rules api bf ms minR maxR tcs = 0) ∧
    (∀ (an : MoveAnalyzer) (rules : RulesEngine) (api : StatsApi)
      (bf ms : String) (minR maxR : Nat) (tcs : List String) (tf : String)
      (pd : PositionStats),
      an.has_api = true →
      rules.apply_san bf ms = some tf →
      api.getStats tf minR maxR tcs false = some pd →
      50 ≤ pd.total_games →
      pd.moves.length = 1 →
      calculate_entropy_sharpness an rules api bf ms minR maxR tcs = 1) ∧
    (∀ (an : MoveAnalyzer) (rules : RulesEngine) (api : StatsApi)
      (bf ms : String) (minR maxR : Nat) (tcs : List String) (tf : String)
      (pd : PositionStats) (s1 s2 : String) (d1 d2 : MoveData) (g : Nat),
      an.has_api = true →
      rules.apply_san bf ms = some tf →
      api.getStats tf minR maxR tcs false = some pd →
      pd.moves = [(s1, d1), (s2, d2)] →
      d1.games = g → d2.games = g →
      pd.total_games = 2 * g → 25 ≤ g →
      calculate_entropy_sharpness an rules api bf ms minR maxR tcs = 0) ∧
    (∀ (an : MoveAnalyzer) (rules : RulesEngine) (api : StatsApi)
      (bf ms : String) (minR maxR : Nat) (tcs : List String),
      0 ≤ calculate_entropy_sharpness an rules api bf ms minR maxR tcs ∧
      calculate_entropy_sharpness an rules api bf ms minR maxR tcs ≤ 1) := by
  refine ⟨?_, ?_, ?_, ?_⟩
  · intro an rules api bf ms minR maxR tcs tf pd happ hapi hlt
    unfold calculate_entropy_sharpness
    cases han : an.has_api with
    | false => simp
    | true =>
      simp only [Bool.true_eq_false, if_false, happ, hapi]
      rw [if_pos hlt]
  · intro an rules api bf ms minR maxR tcs tf pd han happ hapi hge hlen
    unfold calculate_entropy_sharpness
    rw [han]
    simp only [Bool.true_eq_false, if_false, happ, hapi]
    rw [if_neg (by omega), if_pos (by omega)]
  · intro an rules api bf ms minR maxR tcs tf pd s1 s2 d1 d2 g han happ hapi
      hmov hg1 hg2 htot hge
    have hg0 : (0 : ℚ) < (g : ℚ) := by
      exact_mod_cast Nat.lt_of_lt_of_le (by norm_num) hge
    have hhalf : ((g : ℚ)) / (((2 * g : Nat) : ℚ)) = 1 / 2 := by
      push_cast
      rw [div_eq_div_iff (by positivity) (by norm_num)]
      ring
    unfold calculate_entropy_sharpness
    rw [han]
    simp only [Bool.true_eq_false, if_false, happ, hapi]
    rw [if_neg (by omega), hmov]
    simp only [List.length_cons, List.length_nil]
    rw [if_neg (by omega)]
    simp only [List.map_cons, List.map_nil, hg1, hg2, htot, hhalf]
    rw [List.filter_cons_of_pos (by norm_num),
      List.filter_cons_of_pos (by norm_num), List.filter_nil]
    simp only [List.length_cons, List.length_nil]
    rw [if_neg (by omega)]
    have hcast : (((1 : ℚ) / 2 : ℚ) : ℝ) = 1 / 2 := by push_cast; ring
    have hlog2 : Real.logb 2 (2 : ℝ) = 1 := Real.logb_self_eq_one (by norm_num)
    have hlogb : Real.logb 2 ((1 : ℝ) / 2) = -1 := by
      rw [show (1 : ℝ) / 2 = 2⁻¹ by norm_num, Real.logb_inv, hlog2]
    push_cast
    norm_num [hlogb, hlog2]
  · intro an rules api bf ms minR maxR tcs
    rcases entropy_sharpness_cases an rules api bf ms minR maxR tcs with
      h | h | ⟨x, h⟩
    · rw [h]; norm_num
    · rw [h]; norm_num
    · rw [h]
      constructor
      · exact le_max_left 0 _
      · exact max_le (by norm_num) (min_le_left 1 x)

/-- Fixture stats for the C6 witness, one-reply case: a single reply and
60 games. -/
def pdC6w1 : PositionStats :=
  { total_games := 60, white := 30, draws := 0, black := 30,
    moves := [("Qd8", ⟨30, 0, 30, 60⟩)] }

/-- Fixture client for the C6 witness, one-reply case. -/
def apiC6w1 : StatsApi :=
  ⟨fun f _ _ _ _ => if f = "c6r" then some pdC6w1 else none,
   fun _ _ _ _ => none⟩

/-- Fixture stats for the C6 witness, 50/50 case: two replies with 30
games each out of 60. -/
def pdC6w2 : PositionStats :=
  { total_games := 60, white := 30, draws := 0, black := 30,
    moves := [("Qd8", ⟨30, 0, 0, 30⟩), ("Nf6", ⟨0, 0, 30, 30⟩)] }

/-- Fixture client for the C6 witness, 50/50 case. -/
def apiC6w2 : StatsApi :=
  ⟨fun f _ _ _ _ => if f = "c6r" then some pdC6w2 else none,
   fun _ _ _ _ => none⟩

theorem C6_entropy_boundaries_witness :
    calculate_entropy_sharpness anC2 rulesC6 apiC6w1 "c6" "mv" 1600 2200
      ["blitz"] = 1 ∧
    calculate_entropy_sharpness anC2 rulesC6 apiC6w2 "c6" "mv" 1600 2200
      ["blitz"] = 0 :=
  ⟨C6_entropy_boundaries.2.1 anC2 rulesC6 apiC6w1 "c6" "mv" 1600 2200
      ["blitz"] "c6r" pdC6w1 rfl rfl rfl (by decide) rfl,
    C6_entropy_boundaries.2.2.1 anC2 rulesC6 apiC6w2 "c6" "mv" 1600 2200
      ["blitz"] "c6r" pdC6w2 "Qd8" "Nf6" ⟨30, 0, 0, 30⟩ ⟨0, 0, 30, 30⟩ 30
      rfl rfl rfl rfl rfl rfl rfl (by norm_num)⟩

/-! ## Claim C5: the cache key -/

theorem digitChar_ne_underscore : ∀ d, digitChar d ≠ '_' := by
  intro d
  unfold digitChar
  split <;> decide

theorem digitChar_inj_lt : ∀ a < 10, ∀ b < 10,
    digitChar a = digitChar b → a = b := by decide

theorem pyStr_ne_underscore (n : Nat) : '_' ∉ pyStr n := by
  unfold pyStr
  split
  · decide
  · intro hmem
    rw [List.mem_reverse] at hmem
    obtain ⟨d, _, hdc⟩ := List.mem_map.mp hmem
    exact digitChar_ne_underscore d hdc

theorem map_digitChar_inj : ∀ (l1 l2 : List Nat), (∀ d ∈ l1, d < 10) →
    (∀ d ∈ l2, d < 10) → l1.map digitChar = l2.map digitChar → l1 = l2 := by
  intro l1
  induction l1 with
  | nil =>
    intro l2 _ _ h
    cases l2 with
    | nil => rfl
    | cons b t => simp at h
  | cons a t ih =>
    intro l2 h1 h2 h
    cases l2 with
    | nil => simp at h
    | cons b t2 =>
      simp only [List.map_cons, List.cons.injEq] at h
      have ha := h1 a (List.mem_cons_self a t)
      have hb := h2 b (List.mem_cons_self b t2)
      have hab := digitChar_inj_lt a ha b hb h.1
      rw [hab, ih t2 (fun d hd => h1 d (List.mem_cons_of_mem _ hd))
        (fun d hd => h2 d (List.mem_cons_of_mem _ hd)) h.2]

theorem pyStr_inj : ∀ m n : Nat, pyStr m = pyStr n → m = n := by
  have key : ∀ n : Nat, n ≠ 0 → pyStr n ≠ ['0'] := by
    intro n hn hcon
    unfold pyStr at hcon
    rw [if_neg hn] at hcon
    have hmap : (Nat.digits 10 n).map digitChar = ['0'] := by
      have := congrArg List.reverse hcon
      simpa using this
    obtain ⟨d, hd⟩ : ∃ d, Nat.digits 10 n = [d] := by
      cases hdig : Nat.digits 10 n with
      | nil => rw [hdig] at hmap; simp at hmap
      | cons d t =>
        rw [hdig] at hmap
        simp only [List.map_cons, List.cons.injEq] at hmap
        cases t with
        | nil => exact ⟨d, rfl⟩
        | cons e t' => simp at hmap
    rw [hd] at hmap
    simp only [List.map_cons, List.map_nil, List.cons.injEq] at hmap
    have hd10 : d < 10 := Nat.digits_lt_base (by norm_num)
      (by rw [hd]; exact List.mem_cons_self d [])
    have hd0 : d = 0 := digitChar_inj_lt d hd10 0 (by norm_num)
      (by simpa using hmap.1)
    have hlast := Nat.getLast_digit_ne_zero 10 hn
    rw [List.getLast_congr _ _ hd] at hlast
    · simp [hd0] at hlast
    · simp
  intro m n h
  by_cases hm : m = 0 <;> by_cases hn : n = 0
  · rw [hm, hn]
  · exfalso
    apply key n hn
    rw [← h, hm]
    rfl
  · exfalso
    apply key m hm
    rw [h, hn]
    rfl
  · unfold pyStr at h
    rw [if_neg hm, if_neg hn] at h
    have h2 : (Nat.digits 10 m).map digitChar = (Nat.digits 10 n).map digitChar := by
      have := congrArg List.reverse h
      simpa using this
    have h3 := map_digitChar_inj _ _
      (fun d hd => Nat.digits_lt_base (by norm_num) hd)
      (fun d hd => Nat.digits_lt_base (by norm_num) hd) h2
    calc m = Nat.ofDigits 10 (Nat.digits 10 m) := (Nat.ofDigits_digits 10 m).symm
    _ = Nat.ofDigits 10 (Nat.digits 10 n) := by rw [h3]
    _ = n := Nat.ofDigits_digits 10 n

theorem sep_split : ∀ (x y s t : List Char), '_' ∉ x → '_' ∉ y →
    x ++ '_' :: s = y ++ '_' :: t → x = y ∧ s = t := by
  intro x
  induction x with
  | nil =>
    intro y s t _ hy h
    cases y with
    | nil =>
      simp only [List.nil_append, List.cons.injEq] at h
      exact ⟨rfl, h.2⟩
    | cons b y' =>
      simp only [List.nil_append, List.cons_append, List.cons.injEq] at h
      refine absurd ?_ hy
      rw [h.1]
      exact List.mem_cons_self b y'
  | cons a x' ih =>
    intro y s t hx hy h
    cases y with
    | nil =>
      simp only [List.cons_append, List.nil_append, List.cons.injEq] at h
      refine absurd ?_ hx
      rw [← h.1]
      exact List.mem_cons_self a x'
    | cons b y' =>
      simp only [List.cons_append, List.cons.injEq] at h
      obtain ⟨hab, hrest⟩ := h
      obtain ⟨h1, h2⟩ := ih y' s t (fun hm => hx (List.mem_cons_of_mem _ hm))
        (fun hm => hy (List.mem_cons_of_mem _ hm)) hrest
      exact ⟨by rw [hab, h1], h2⟩

theorem join_ne_nil : ∀ l : List (List Char), l ≠ [] → (∀ e ∈ l, e ≠ []) →
    joinUnderscoreChars l ≠ [] := by
  intro l hl he
  cases l with
  | nil => exact absurd rfl hl
  | cons e r =>
    cases r with
    | nil => exact he e (List.mem_cons_self e [])
    | cons f r' =>
      show e ++ '_' :: joinUnderscoreChars (f :: r') ≠ []
      simp

theorem join_inj : ∀ (l1 l2 : List (List Char)),
    (∀ e ∈ l1, e ≠ [] ∧ '_' ∉ e) → (∀ e ∈ l2, e ≠ [] ∧ '_' ∉ e) →
    joinUnderscoreChars l1 = joinUnderscoreChars l2 → l1 = l2 := by
  intro l1
  induction l1 with
  | nil =>
    intro l2 _ h2 h
    cases l2 with
    | nil => rfl
    | cons f r2 =>
      exact absurd h.symm (join_ne_nil (f :: r2) (by simp)
        (fun e he => (h2 e he).1))
  | cons e r ih =>
    intro l2 h1 h2 h
    cases l2 with
    | nil =>
      exact absurd h (join_ne_nil (e :: r) (by simp) (fun x hx => (h1 x hx).1))
    | cons f r2 =>
      cases r with
      | nil =>
        cases r2 with
        | nil =>
          show [e] = [f]
          rw [show e = f from h]
        | cons g r2' =>
          exfalso
          have hin : '_' ∈ e := by
            rw [show joinUnderscoreChars [e] = e from rfl] at h
            rw [h]
            show '_' ∈ f ++ '_' :: joinUnderscoreChars (g :: r2')
            simp
          exact (h1 e (List.mem_cons_self e [])).2 hin
      | cons e2 r' =>
        cases r2 with
        | nil =>
          exfalso
          have hin : '_' ∈ f := by
            rw [show joinUnderscoreChars [f] = f from rfl] at h
            rw [← h]
            show '_' ∈ e ++ '_' :: joinUnderscoreChars (e2 :: r')
            simp
          exact (h2 f (List.mem_cons_self f [])).2 hin
        | cons f2 r2' =>
          have h' : e ++ '_' :: joinUnderscoreChars (e2 :: r') =
              f ++ '_' :: joinUnderscoreChars (f2 :: r2') := h
          obtain ⟨hef, hrest⟩ := sep_split e f _ _
            (h1 e (List.mem_cons_self e _)).2 (h2 f (List.mem_cons_self f _)).2 h'
          have := ih (f2 :: r2')
            (fun x hx => h1 x (List.mem_cons_of_mem _ hx))
            (fun x hx => h2 x (List.mem_cons_of_mem _ hx)) hrest
          rw [hef, this]

theorem string_data_injective : Function.Injective String.data := by
  intro a b h
  cases a; cases b
  exact congrArg String.mk h

instance : IsTotal String pyStrLe :=
  ⟨fun a b => total_of (· ≤ ·) a.data b.data⟩

instance : IsTrans String pyStrLe :=
  ⟨fun _ _ _ h1 h2 => le_trans h1 h2⟩

instance : IsAntisymm String pyStrLe :=
  ⟨fun _ _ h1 h2 => string_data_injective (le_antisymm h1 h2)⟩

theorem sortedStrings_eq_of_perm {l1 l2 : List String} (h : l1.Perm l2) :
    sortedStrings l1 = sortedStrings l2 :=
  List.eq_of_perm_of_sorted
    ((List.perm_insertionSort _ l1).trans (h.trans
      (List.perm_insertionSort _ l2).symm))
    (List.sorted_insertionSort _ l1) (List.sorted_insertionSort _ l2)

theorem mem_sortedStrings {s : String} {l : List String} :
    s ∈ sortedStrings l ↔ s ∈ l :=
  (List.perm_insertionSort _ l).mem_iff

theorem cache_key_components (fen1 fen2 : String) (m1 M1 m2 M2 : Nat)
    (tcs1 tcs2 : List String)
    (hf1 : '_' ∉ fen1.data) (hf2 : '_' ∉ fen2.data)
    (ht1 : ∀ t ∈ tcs1, t.data ≠ [] ∧ '_' ∉ t.data)
    (ht2 : ∀ t ∈ tcs2, t.data ≠ [] ∧ '_' ∉ t.data)
    (h : _get_cache_key fen1 m1 M1 tcs1 = _get_cache_key fen2 m2 M2 tcs2) :
    fen1 = fen2 ∧ m1 = m2 ∧ M1 = M2 ∧ (∀ s, s ∈ tcs1 ↔ s ∈ tcs2) := by
  unfold _get_cache_key md5hex at h
  simp only [id] at h
  obtain ⟨hfen, h⟩ := sep_split _ _ _ _ hf1 hf2 h
  obtain ⟨hm, h⟩ := sep_split _ _ _ _ (pyStr_ne_underscore m1)
    (pyStr_ne_underscore m2) h
  obtain ⟨hM, h⟩ := sep_split _ _ _ _ (pyStr_ne_underscore M1)
    (pyStr_ne_underscore M2) h
  have hcond1 : ∀ e ∈ (sortedStrings tcs1).map String.data, e ≠ [] ∧ '_' ∉ e := by
    intro e he
    obtain ⟨t, ht, rfl⟩ := List.mem_map.mp he
    exact ht1 t (mem_sortedStrings.mp ht)
  have hcond2 : ∀ e ∈ (sortedStrings tcs2).map String.data, e ≠ [] ∧ '_' ∉ e := by
    intro e he
    obtain ⟨t, ht, rfl⟩ := List.mem_map.mp he
    exact ht2 t (mem_sortedStrings.mp ht)
  have hmap := join_inj _ _ hcond1 hcond2 h
  have hsorted : sortedStrings tcs1 = sortedStrings tcs2 :=
    List.map_injective_iff.mpr string_data_injective hmap
  refine ⟨string_data_injective hfen, pyStr_inj m1 m2 hm, pyStr_inj M1 M2 hM, ?_⟩
  intro s
  rw [← mem_sortedStrings (l := tcs1), ← mem_sortedStrings (l := tcs2), hsorted]

/-- C5: (first conjunct) the cache key is order-independent over the
time-control list: permuting the time controls gives the same key;
(second conjunct, the amended injectivity) two argument tuples whose
components are underscore-free (and whose time controls are nonempty)
receive the same key only if they agree in fen, both ratings, and the
set of time controls.  The counterexample shows the underscore proviso
cannot be dropped. -/
theorem C5_cache_key :
    (∀ (fen : String) (min_rating max_rating : Nat)
      (tcs1 tcs2 : List String), tcs1.Perm tcs2 →
      _get_cache_key fen min_rating max_rating tcs1 =
        _get_cache_key fen min_rating max_rating tcs2) ∧
    (∀ (fen1 fen2 : String) (m1 m2 M1 M2 : Nat) (tcs1 tcs2 : List String),
      '_' ∉ fen1.data → '_' ∉ fen2.data →
      (∀ t ∈ tcs1, t.data ≠ [] ∧ '_' ∉ t.data) →
      (∀ t ∈ tcs2, t.data ≠ [] ∧ '_' ∉ t.data) →
      _get_cache_key fen1 m1 M1 tcs1 = _get_cache_key fen2 m2 M2 tcs2 →
      fen1 = fen2 ∧ m1 = m2 ∧ M1 = M2 ∧ (∀ s, s ∈ tcs1 ↔ s ∈ tcs2)) := by
  constructor
  · intro fen m M tcs1 tcs2 hperm
    unfold _get_cache_key
    rw [sortedStrings_eq_of_perm hperm]
  · intro fen1 fen2 m1 m2 M1 M2 tcs1 tcs2 hf1 hf2 ht1 ht2 h
    exact cache_key_components fen1 fen2 m1 M1 m2 M2 tcs1 tcs2 hf1 hf2 ht1 ht2 h

/-- C5 counterexample: the claim's injectivity conjunct is false as
stated: the argument tuples with time controls `["b_c"]` and
`["b", "c"]` differ in their set of time controls yet receive the same
cache key, because the underscore-joined encodings coincide. -/
theorem C5_counterexample :
    _get_cache_key "fen" 1600 2200 ["b_c"] =
      _get_cache_key "fen" 1600 2200 ["b", "c"] ∧
    ¬ (∀ s : String, s ∈ ["b_c"] ↔ s ∈ ["b", "c"]) := by
  constructor
  · rfl
  · intro hall
    exact absurd ((hall "b_c").mp (by simp)) (by decide)

theorem C5_cache_key_witness :
    _get_cache_key "rnbq" 1600 2200 ["blitz", "rapid"] =
      _get_cache_key "rnbq" 1600 2200 ["rapid", "blitz"] ∧
    ("rnbq" = "rnbq" ∧ 1600 = 1600 ∧ 2200 = 2200 ∧
      (∀ s, s ∈ (["blitz"] : List String) ↔ s ∈ (["blitz"] : List String))) :=
  ⟨C5_cache_key.1 "rnbq" 1600 2200 ["blitz", "rapid"] ["rapid", "blitz"]
      (List.Perm.swap "rapid" "blitz" []),
    C5_cache_key.2 "rnbq" "rnbq" 1600 1600 2200 2200 ["blitz"] ["blitz"]
      (by decide) (by decide) (by decide) (by decide) rfl⟩
